import Mathlib

/-!
Verification of the shortlist email-match pipeline.

This file gives a shallow embedding of the core matching, fusion, state-store
and poll-loop logic of the repository (`app/match_utils.py`, `app/match_logic.py`,
`app/state_utils.py`, `app/parsers/__init__.py`, `app/runner.py`, `app/api.py`,
`app/calendar_service.py`) and proves or refutes the specification claims
about it.  Python strings are modelled as Lean `String` / `List Char`
(ASCII-faithful case folding and whitespace), dicts with fixed key sets as
structures, absent/None string values as `""` or `Option`, and the filesystem
side effects of the runner as an explicit record of persisted values.
-/

namespace Shortlist

/-! ### Text primitives

Character-level helpers mirroring the Python string operations used by the
matching code: `str.lower`, `str.upper`, `re.sub(r"\s+", " ", ·)`, `str.strip`,
`str.split`, `str.find(sub, start)` and the `in` substring test.
ASCII semantics (the profile and verdict data in this code base is ASCII). -/

/-- ASCII whitespace class, modelling Python's `\s` / `str.strip()` on the
characters that occur in this code base. -/
def isWs (c : Char) : Bool :=
  c = ' ' || c = '\t' || c = '\n' || c = '\r' || c = '\x0b' || c = '\x0c'

/-- `re.sub(r"\s+", " ", l)`: each maximal run of whitespace becomes a single
space. The `Bool` argument tracks whether the previous character was part of a
whitespace run already emitted. -/
def collapseWsAux : List Char → Bool → List Char
  | [], _ => []
  | c :: cs, prevWs =>
    if isWs c then
      if prevWs then collapseWsAux cs true
      else ' ' :: collapseWsAux cs true
    else c :: collapseWsAux cs false

def collapseWs (l : List Char) : List Char := collapseWsAux l false

/-- Python `str.strip()`: drop whitespace at both ends. -/
def stripWs (l : List Char) : List Char :=
  ((l.dropWhile isWs).reverse.dropWhile isWs).reverse

/-- Python `str.lower()` (ASCII). -/
def lowerL (l : List Char) : List Char := l.map Char.toLower

/-- Python `str.upper()` (ASCII). -/
def upperL (l : List Char) : List Char := l.map Char.toUpper

/-- Python `[p for p in s.split(" ") if p]`: split on the space character,
dropping empty pieces. `acc` is the (reversed) current word. -/
def wordsSpaceAux : List Char → List Char → List (List Char)
  | [], acc => if acc = [] then [] else [acc.reverse]
  | c :: cs, acc =>
    if c = ' ' then
      if acc = [] then wordsSpaceAux cs []
      else acc.reverse :: wordsSpaceAux cs []
    else wordsSpaceAux cs (c :: acc)

def wordsSpace (l : List Char) : List (List Char) := wordsSpaceAux l []

/-- Python `str.split()` with no argument: split on any whitespace run,
no empty pieces. -/
def wordsWsAux : List Char → List Char → List (List Char)
  | [], acc => if acc = [] then [] else [acc.reverse]
  | c :: cs, acc =>
    if isWs c then
      if acc = [] then wordsWsAux cs []
      else acc.reverse :: wordsWsAux cs []
    else wordsWsAux cs (c :: acc)

def wordsWs (l : List Char) : List (List Char) := wordsWsAux l []

/-- Scan positions `j, j+1, …, j+k` and return the first position at which `p`
is a prefix of `t.drop j` (the first occurrence of `p` at or after `j`). -/
def findFromAux (t p : List Char) : Nat → Nat → Option Nat
  | j, 0 => if p.isPrefixOf (t.drop j) then some j else none
  | j, k + 1 => if p.isPrefixOf (t.drop j) then some j else findFromAux t p (j + 1) k

/-- Python `t.find(p, i)` (as an `Option` instead of `-1`). -/
def findFrom (t p : List Char) (i : Nat) : Option Nat :=
  if i ≤ t.length then findFromAux t p i (t.length - i) else none

/-- Python `p in t` substring test. -/
def containsSub (t p : List Char) : Bool := (findFrom t p 0).isSome

/-- Python `set(a).issubset(set(b))` on word lists. -/
def subsetWords (a b : List (List Char)) : Bool := a.all fun w => b.contains w

end Shortlist

namespace Shortlist

/-! ### `app/match_utils.py` -/

/-- `MATCH_HIERARCHY` (match_utils.py:14). -/
def MATCH_HIERARCHY : List String :=
  ["CONFIRMED_MATCH", "POSSIBILITY", "PARTIAL_MATCH", "NO_MATCH"]

/-- `rank` (match_utils.py:22): `MATCH_HIERARCHY.index(match_type)`, with
unknown types treated as worst possible (`len(MATCH_HIERARCHY)`, i.e. 4) —
`List.indexOf` returns the length when the element is absent, exactly the
`except ValueError` fallback. -/
def rank (match_type : String) : Nat := MATCH_HIERARCHY.indexOf match_type

/-- Python `min(candidates, key=rank)` on a nonempty list `c :: cs`: keep the
first element attaining the minimal rank. -/
def minFold (c : String) (cs : List String) : String :=
  cs.foldl (fun acc x => if rank x < rank acc then x else acc) c

/-- `best` (match_utils.py:33), varargs modelled as a list: filter out falsy
(empty) values, return `NO_MATCH` when nothing remains, otherwise the
minimum by rank. -/
def best (match_types : List String) : String :=
  match match_types.filter (fun m => m ≠ "") with
  | [] => "NO_MATCH"
  | c :: cs => minFold c cs

/-- `best_of` (match_utils.py:44). -/
def best_of (l : List String) : String := best l

/-- `is_better` (match_utils.py:52). -/
def is_better (a b : String) : Bool := rank a < rank b

/-- A canonical verdict: member of `MATCH_HIERARCHY`. -/
def canonical (v : String) : Prop := v ∈ MATCH_HIERARCHY

instance : DecidablePred canonical := fun v =>
  inferInstanceAs (Decidable (v ∈ MATCH_HIERARCHY))

end Shortlist

namespace Shortlist

/-! ### `app/match_logic.py` (same functions are duplicated in `app/runner.py`) -/

/-- The identity profile (`profile.json` contents).  Python reads fields with
`profile.get(key, "")`; absent/None fields are modelled as `""`. -/
structure Profile where
  name : String
  registration_number : String
  gmail_address : String
  personal_email : String
  gmail_display_name : String
  deriving DecidableEq, Repr

/-- `check_name_match` (match_logic.py:12): case-insensitive; exact match or
all profile-name words present in the email name's word set. -/
def check_name_match (profile_name email_name : String) : Bool :=
  if profile_name = "" || email_name = "" then false
  else
    let pn := stripWs (lowerL profile_name.data)
    let en := stripWs (lowerL email_name.data)
    if pn = en then true
    else subsetWords (wordsWs pn) (wordsWs en)

/-- `check_email_match` (match_logic.py:30): strict case-insensitive equality. -/
def check_email_match (profile_email email_addr : String) : Bool :=
  if profile_email = "" || email_addr = "" then false
  else stripWs (lowerL profile_email.data) = stripWs (lowerL email_addr.data)

/-- Normalised text: `re.sub(r"\s+", " ", text).lower()` (match_logic.py:42). -/
def normTextChars (text : String) : List Char := lowerL (collapseWs text.data)

/-- Normalised name: `re.sub(r"\s+", " ", name).lower().strip()`
(match_logic.py:43). -/
def normNameChars (name : String) : List Char :=
  stripWs (lowerL (collapseWs name.data))

/-- The find loop of `text_contains_name` (match_logic.py:48-54): each name
word must be found in the text at or after the index reached so far; the index
then advances past the found occurrence. -/
def containsLoop (t : List Char) : List (List Char) → Nat → Bool
  | [], _ => true
  | p :: ps, idx =>
    match findFrom t p idx with
    | none => false
    | some found => containsLoop t ps (found + p.length)

/-- `text_contains_name` (match_logic.py:37). -/
def text_contains_name (text name : String) : Bool :=
  if text = "" ∨ name = "" then false
  else
    let t := normTextChars text
    let n := normNameChars name
    if n = [] then false
    else containsLoop t (wordsSpace n) 0

/-- The `reg_match` condition of `evaluate_match` (match_logic.py:65):
`bool(profile_reg and parsed_reg and profile_reg.upper() == parsed_reg.upper())`. -/
def header_reg_match (profile : Profile) (parsed_reg : String) : Bool :=
  profile.registration_number ≠ "" && parsed_reg ≠ "" &&
    upperL profile.registration_number.data = upperL parsed_reg.data

/-- `evaluate_match` (match_logic.py:57): header-based decision table. -/
def evaluate_match (profile : Profile) (parsed_name parsed_reg sender_email : String) :
    String :=
  let name_match := check_name_match profile.name parsed_name
  let reg_match := header_reg_match profile parsed_reg
  let gmail_match := check_email_match profile.gmail_address sender_email
  let personal_match := check_email_match profile.personal_email sender_email
  if name_match && (reg_match || gmail_match || personal_match) then "CONFIRMED_MATCH"
  else if name_match then "POSSIBILITY"
  else if reg_match || gmail_match || personal_match then "PARTIAL_MATCH"
  else "NO_MATCH"

/-- The text scanned by `evaluate_content_match` (match_logic.py:86):
`f"{subject}\n{body}" if body else subject or ""`. -/
def content_text (subject body : String) : String :=
  if body ≠ "" then subject ++ "\n" ++ body else subject

/-- The `name_match` condition of `evaluate_content_match` (match_logic.py:94),
with `prof_name = (profile.get("name") or "").strip()`. -/
def content_name_match (profile : Profile) (subject body : String) : Bool :=
  text_contains_name (content_text subject body) (String.mk (stripWs profile.name.data))

/-- The `reg_match` condition of `evaluate_content_match` (match_logic.py:95):
`re.search(re.escape(prof_reg), text, re.IGNORECASE)` is a case-insensitive
substring test for the literal registration code. -/
def content_reg_match (profile : Profile) (subject body : String) : Bool :=
  let prof_reg := stripWs profile.registration_number.data
  prof_reg ≠ [] && containsSub (lowerL (content_text subject body).data) (lowerL prof_reg)

/-- The `gmail_match` condition of `evaluate_content_match` (match_logic.py:96). -/
def content_gmail_match (profile : Profile) (subject body : String) : Bool :=
  let prof_gmail := lowerL (stripWs profile.gmail_address.data)
  prof_gmail ≠ [] && containsSub (lowerL (content_text subject body).data) prof_gmail

/-- The `personal_match` condition of `evaluate_content_match`
(match_logic.py:97). -/
def content_personal_match (profile : Profile) (subject body : String) : Bool :=
  let prof_personal := lowerL (stripWs profile.personal_email.data)
  prof_personal ≠ [] && containsSub (lowerL (content_text subject body).data) prof_personal

/-- `evaluate_content_match` (match_logic.py:79): subject/body based decision
table. -/
def evaluate_content_match (profile : Profile) (subject body : String) : String :=
  let name_match := content_name_match profile subject body
  let reg_match := content_reg_match profile subject body
  let gmail_match := content_gmail_match profile subject body
  let personal_match := content_personal_match profile subject body
  if name_match && (reg_match || gmail_match || personal_match) then "CONFIRMED_MATCH"
  else if name_match then "POSSIBILITY"
  else if reg_match || gmail_match || personal_match then "PARTIAL_MATCH"
  else "NO_MATCH"

end Shortlist

namespace Shortlist

/-! ### `app/state_utils.py` (duplicated in `app/runner.py`) -/

/-- A persisted match entry (the dict built in `update_state_with_match`,
state_utils.py:79-87). `timestamp` is the `time.time()` reading, passed in
explicitly (modelled as an abstract clock tick). -/
structure MatchEntry where
  message_id : String
  timestamp : Nat
  from_display_name : String
  from_email : String
  parsed_name : String
  parsed_reg : String
  subject : String
  deriving DecidableEq, Repr

/-- The processing state persisted in `state.json` (load_state fallback shape,
state_utils.py:20-25). `last_message_id` is `None` or a message id. -/
structure PState where
  last_message_id : Option String
  confirmed_matches : List MatchEntry
  possibilities : List MatchEntry
  partial_matches : List MatchEntry
  deriving DecidableEq, Repr

/-- The summary block of `parse_email_attachments` results that the runner
reads (`overall_match_type`, `total_attachments`). -/
structure AttachmentSummary where
  overall_match_type : String
  total_attachments : Nat
  deriving DecidableEq, Repr

/-- The `email_data` dict built in `run` (runner.py:343-353) /
`check_email` (api.py:144-155). -/
structure EmailData where
  message_id : String
  from_display_name : String
  from_email : String
  parsed_name : String
  parsed_reg : String
  subject : String
  body_preview : String
  match_type : String
  attachments : AttachmentSummary
  deriving DecidableEq, Repr

/-- The match entry built from `email_data` in `update_state_with_match`
(state_utils.py:79-87). -/
def mkMatchEntry (e : EmailData) (now : Nat) : MatchEntry :=
  { message_id := e.message_id
    timestamp := now
    from_display_name := e.from_display_name
    from_email := e.from_email
    parsed_name := e.parsed_name
    parsed_reg := e.parsed_reg
    subject := e.subject }

/-- The per-category size limit (state_utils.py:96-99): keep only the last 100
entries when a list exceeds 100. -/
def trim100 (l : List MatchEntry) : List MatchEntry :=
  if l.length > 100 then l.drop (l.length - 100) else l

/-- `update_state_with_match` (state_utils.py:75): append the entry to the
category list named by `match_type` (no list for any other value), then trim
every category list. -/
def update_state_with_match (state : PState) (email_data : EmailData) (now : Nat)
    (match_type : String) : PState :=
  let entry := mkMatchEntry email_data now
  let s1 :=
    if match_type = "CONFIRMED_MATCH" then
      { state with confirmed_matches := state.confirmed_matches ++ [entry] }
    else if match_type = "POSSIBILITY" then
      { state with possibilities := state.possibilities ++ [entry] }
    else if match_type = "PARTIAL_MATCH" then
      { state with partial_matches := state.partial_matches ++ [entry] }
    else state
  { s1 with
    confirmed_matches := trim100 s1.confirmed_matches
    possibilities := trim100 s1.possibilities
    partial_matches := trim100 s1.partial_matches }

/-- The category list selected by a verdict string. -/
def catList (match_type : String) (s : PState) : List MatchEntry :=
  if match_type = "CONFIRMED_MATCH" then s.confirmed_matches
  else if match_type = "POSSIBILITY" then s.possibilities
  else if match_type = "PARTIAL_MATCH" then s.partial_matches
  else []

/-- Repeated application of `update_state_with_match` with a fixed verdict, in
order (each element is an `email_data` with its `time.time()` reading). -/
def applyMany (state : PState) (l : List (EmailData × Nat)) (match_type : String) :
    PState :=
  l.foldl (fun s en => update_state_with_match s en.1 en.2 match_type) state

/-! Filesystem write operations, for the persistence-mechanism claim about
`save_state`.  A write carries the serialised value it puts at a path
(JSON serialisation itself is a library call, modelled as the identity on the
state value). -/

inductive FsOp where
  | writeState (path : String) (content : PState)
  | rename (src dst : String)
  deriving DecidableEq, Repr

def FsOp.isRename : FsOp → Bool
  | .rename _ _ => true
  | _ => false

def STATE_FILE : String := "state.json"

/-- `save_state` (state_utils.py:28-30 and runner.py:45-46):
`path.write_text(json.dumps(state, indent=2))` — a single direct write of the
full serialised state to the state file path. -/
def save_state_ops (state : PState) : List FsOp :=
  [FsOp.writeState STATE_FILE state]

end Shortlist

namespace Shortlist

/-! ### `app/parsers/__init__.py` and `app/parsers/doc_parser.py`

The attachment scanner.  Cell-level signal extraction (`REG_RE`/`EMAIL_RE`
regex scans and the `is_likely_name` heuristic over pandas cells,
doc_parser.py:90-142) is external input here: a table row is characterised by
the `matching_cells` list it produced, which is the only part of `row_data`
that the classification and aggregation code reads. -/

/-- One entry of `row_data['matching_cells']`: the `type` field is one of the
literals `'name'`, `'registration'`, `'email'` (doc_parser.py:105,122,137). -/
structure CellMatch where
  ctype : String
  deriving DecidableEq, Repr

/-- A scanned table row, characterised by its matching cells. -/
structure RowData where
  matching_cells : List CellMatch
  deriving DecidableEq, Repr

/-- `evaluate_row_match_flexible` (doc_parser.py:174): the Python function
receives the profile fields but reads only `row_data['matching_cells']`;
the flag-setting loop over cells is equivalent to the three `any` tests. -/
def evaluate_row_match_flexible (row_data : RowData) : String :=
  let name_match := row_data.matching_cells.any fun c => c.ctype = "name"
  let reg_match := row_data.matching_cells.any fun c => c.ctype = "registration"
  let email_match := row_data.matching_cells.any fun c => c.ctype = "email"
  if name_match && (reg_match || email_match) then "CONFIRMED_MATCH"
  else if name_match then "POSSIBILITY"
  else if reg_match || email_match then "PARTIAL_MATCH"
  else "NO_MATCH"

/-- The three per-verdict row lists built by `scan_dataframe_for_values`
(doc_parser.py:144-152): each row is appended to the list named by its
verdict; `NO_MATCH` rows are appended nowhere. -/
structure DocScan where
  confirmed_matches : List RowData
  possibilities : List RowData
  partial_matches : List RowData
  deriving DecidableEq, Repr

/-- One step of the row-dispatch loop of `scan_dataframe_for_values`
(doc_parser.py:144-152): append the row to the list named by its verdict. -/
def scanRowsStep (acc : DocScan) (row : RowData) : DocScan :=
  let mt := evaluate_row_match_flexible row
  if mt = "CONFIRMED_MATCH" then
    { acc with confirmed_matches := acc.confirmed_matches ++ [row] }
  else if mt = "POSSIBILITY" then
    { acc with possibilities := acc.possibilities ++ [row] }
  else if mt = "PARTIAL_MATCH" then
    { acc with partial_matches := acc.partial_matches ++ [row] }
  else acc

/-- The row-dispatch loop of `scan_dataframe_for_values` (doc_parser.py:79-152),
over the rows with their extracted `matching_cells`. -/
def scanRows (rows : List RowData) : DocScan :=
  rows.foldl scanRowsStep ⟨[], [], []⟩

/-- What the two per-attachment parsers can hand back to
`parse_email_attachments` (parsers/__init__.py:104-110):
* `doc rows` — the document parser succeeded on a CSV/Excel file and scanned
  these rows (result dict has `confirmed_matches`/… keys, no `error`);
* `docError` — the document parser matched the file type but failed
  (`{"error": …}`, doc_parser.py:207,260,283);
* `pdf matchType` — the PDF parser succeeded (`evaluate_text_match` result,
  `match_type` one of the four verdicts, pdf_parser.py:128-134);
* `pdfError` — the PDF parser failed (`{"error": …, "match_type": "ERROR"}`);
* `unsupported` — both parsers returned `None`. -/
inductive AttachmentOutcome where
  | doc (rows : List RowData)
  | docError
  | pdf (matchType : String)
  | pdfError
  | unsupported
  deriving DecidableEq, Repr

/-- One entry of `results['parsing_results']`: the parser used and the
`match_type` key of the recorded `parsing_result` dict (absent for document
results, which carry no `match_type` key). -/
structure ParsingEntry where
  parser_used : String
  result_match_type : Option String
  deriving DecidableEq, Repr

/-- The `results` dict of `parse_email_attachments`
(parsers/__init__.py:76-87), restricted to the fields the aggregation logic
writes. -/
structure AttachResults where
  total_attachments : Nat
  parsed_attachments : Nat
  parsing_results : List ParsingEntry
  summary_confirmed : Nat
  summary_possibilities : Nat
  summary_partial_matches : Nat
  summary_errors : Nat
  overall_match_type : String
  deriving DecidableEq, Repr

/-- The per-attachment accumulation step of `parse_email_attachments`
(parsers/__init__.py:98-152). -/
def accumAttachment (acc : AttachResults) (o : AttachmentOutcome) : AttachResults :=
  match o with
  | .doc rows =>
    let scan := scanRows rows
    { acc with
      parsing_results := acc.parsing_results ++ [⟨"document", none⟩]
      parsed_attachments := acc.parsed_attachments + 1
      summary_confirmed := acc.summary_confirmed + scan.confirmed_matches.length
      summary_possibilities := acc.summary_possibilities + scan.possibilities.length
      summary_partial_matches :=
        acc.summary_partial_matches + scan.partial_matches.length }
  | .docError =>
    -- an error dict has no `total_rows` key, so line 118 labels it "pdf"
    { acc with
      parsing_results := acc.parsing_results ++ [⟨"pdf", none⟩]
      parsed_attachments := acc.parsed_attachments + 1
      summary_errors := acc.summary_errors + 1 }
  | .pdf matchType =>
    let acc :=
      { acc with
        parsing_results := acc.parsing_results ++ [⟨"pdf", some matchType⟩]
        parsed_attachments := acc.parsed_attachments + 1 }
    if matchType = "CONFIRMED_MATCH" then
      { acc with summary_confirmed := acc.summary_confirmed + 1 }
    else if matchType = "POSSIBILITY" then
      { acc with summary_possibilities := acc.summary_possibilities + 1 }
    else if matchType = "PARTIAL_MATCH" then
      { acc with summary_partial_matches := acc.summary_partial_matches + 1 }
    else acc
  | .pdfError =>
    { acc with
      parsing_results := acc.parsing_results ++ [⟨"pdf", some "ERROR"⟩]
      parsed_attachments := acc.parsed_attachments + 1
      summary_errors := acc.summary_errors + 1 }
  | .unsupported =>
    { acc with
      parsing_results := acc.parsing_results ++ [⟨"none", some "UNSUPPORTED"⟩] }

/-- `parse_email_attachments` (parsers/__init__.py:69-162) over the
per-attachment parse outcomes: accumulate each attachment, then derive the
overall verdict from the summary counts (lines 154-160). -/
def parse_email_attachments (outcomes : List AttachmentOutcome) : AttachResults :=
  let init : AttachResults :=
    { total_attachments := outcomes.length
      parsed_attachments := 0
      parsing_results := []
      summary_confirmed := 0
      summary_possibilities := 0
      summary_partial_matches := 0
      summary_errors := 0
      overall_match_type := "NO_MATCH" }
  let res := outcomes.foldl accumAttachment init
  { res with
    overall_match_type :=
      if res.summary_confirmed > 0 then "CONFIRMED_MATCH"
      else if res.summary_possibilities > 0 then "POSSIBILITY"
      else if res.summary_partial_matches > 0 then "PARTIAL_MATCH"
      else "NO_MATCH" }

/-- The verdicts of all classified rows and documents contributed by one
attachment: one verdict per table row of a scanned document, and the document
verdict of a parsed PDF; errors and unsupported files contribute none. -/
def outcomeVerdicts : AttachmentOutcome → List String
  | .doc rows => rows.map evaluate_row_match_flexible
  | .pdf matchType => [matchType]
  | .docError => []
  | .pdfError => []
  | .unsupported => []

/-- All verdicts of classified rows and documents across a list of scanned
attachments. -/
def allVerdicts (outcomes : List AttachmentOutcome) : List String :=
  outcomes.flatMap outcomeVerdicts

end Shortlist

namespace Shortlist

/-! ### `app/runner.py` (poll-loop iteration), `app/api.py` (`check_email`),
`app/calendar_service.py` (`should_create_calendar_event`)

One iteration of the poll loop, with the external collaborators abstracted:
the newest fetched message arrives already header-parsed (`parse_from_header`
and `split_name_and_reg` wrap `email.utils` and a regex over the raw header —
their outputs `display_name`, `addr`, `parsed_name`, `reg` are inputs here),
and the attachment scan arrives as its result summary.  Persisted data
(`state.json`, `profile.json`, the per-match files in `data/`) is an explicit
`FileSystem` record; `create_calendar_event` is the one call that may raise,
modelled by the `calendarRaises` flag. -/

/-- The newest inbound message after header parsing and body extraction. -/
structure FetchedEmail where
  message_id : String
  display_name : String
  from_email : String
  subject : String
  body : String
  parsed_name : String
  parsed_reg : String
  deriving DecidableEq, Repr

/-- The per-match artifact written by `log_match_to_data`
(state_utils.py:38-62 / runner.py:227-263) into the `data/` directory. -/
structure MatchData where
  profile : Profile
  message_id : String
  from_display_name : String
  from_email : String
  parsed_name : String
  parsed_reg : String
  subject : String
  body_preview : String
  match_type : String
  attachments : AttachmentSummary
  deriving DecidableEq, Repr

/-- The persisted files the pipeline touches: `state.json`, `profile.json`,
and the append-only list of match artifacts in `data/`. -/
structure FileSystem where
  stateFile : PState
  profileFile : Profile
  matchFiles : List MatchData
  deriving DecidableEq, Repr

/-- `should_create_calendar_event` (calendar_service.py:371-375). -/
def should_create_calendar_event (email_data : EmailData) : Bool :=
  email_data.match_type = "CONFIRMED_MATCH"

/-- `hierarchy.index` of runner.py:323/334 (`hierarchy` is the same list as
`MATCH_HIERARCHY`; its arguments there are always members). -/
def hierarchyIndex (v : String) : Nat := MATCH_HIERARCHY.indexOf v

/-- Steps 3-5 of `run` (runner.py:316-337): header verdict, content verdict,
their strongest (`min` by hierarchy index, first on ties), then the attachment
upgrade. -/
def overallVerdict (profile : Profile) (m : FetchedEmail)
    (attach : AttachmentSummary) : String :=
  let match_type_header := evaluate_match profile m.parsed_name m.parsed_reg m.from_email
  let match_type_content := evaluate_content_match profile m.subject m.body
  let match_type :=
    if hierarchyIndex match_type_content < hierarchyIndex match_type_header then
      match_type_content
    else match_type_header
  if attach.overall_match_type ≠ "NO_MATCH" ∧
      hierarchyIndex attach.overall_match_type < hierarchyIndex match_type then
    attach.overall_match_type
  else match_type

/-- The `email_data` dict of runner.py:343-353. -/
def emailDataOf (m : FetchedEmail) (attach : AttachmentSummary)
    (overall : String) : EmailData :=
  { message_id := m.message_id
    from_display_name := m.display_name
    from_email := m.from_email
    parsed_name := m.parsed_name
    parsed_reg := m.parsed_reg
    subject := m.subject
    body_preview := String.mk (m.body.data.take 400)
    match_type := overall
    attachments := attach }

/-- The artifact written by `log_match_to_data`. -/
def mkMatchData (profile : Profile) (e : EmailData) : MatchData :=
  { profile := profile
    message_id := e.message_id
    from_display_name := e.from_display_name
    from_email := e.from_email
    parsed_name := e.parsed_name
    parsed_reg := e.parsed_reg
    subject := e.subject
    body_preview := e.body_preview
    match_type := e.match_type
    attachments := e.attachments }

/-- Result of one poll-loop iteration: the filesystem afterwards, the
in-memory state and profile, and whether an exception escaped the iteration
body into the outer `except` handler (runner.py:442-444). -/
structure IterationResult where
  fs : FileSystem
  memState : PState
  memProfile : Profile
  raised : Bool
  deriving DecidableEq, Repr

/-- Lines 341-378 of `run`: for a non-`NO_MATCH` fused verdict, write the
match artifact (`log_match_to_data`), update the in-memory state
(`update_state_with_match`), then — for the strongest tier only
(`should_create_calendar_event`) — invoke the calendar collaborator, which may
raise.  Returns the filesystem, the in-memory state, and the raise flag. -/
def persistAndSideEffects (fs : FileSystem) (state : PState) (profile : Profile)
    (email_data : EmailData) (attach : AttachmentSummary) (now : Nat)
    (calendarRaises : Bool) : FileSystem × PState × Bool :=
  if email_data.match_type ≠ "NO_MATCH" ∨ attach.total_attachments > 0 then
    if email_data.match_type ≠ "NO_MATCH" then
      let fs1 :=
        { fs with matchFiles := fs.matchFiles ++ [mkMatchData profile email_data] }
      let state1 := update_state_with_match state email_data now email_data.match_type
      if should_create_calendar_event email_data ∧ calendarRaises then
        (fs1, state1, true)
      else (fs1, state1, false)
    else (fs, state, false)
  else (fs, state, false)

/-- Step 7 of `run` (runner.py:402-418): overwrite `gmail_display_name` with a
non-empty, different sender display name; backfill `name` and
`registration_number` only when currently empty.  Returns the new profile and
the `updated` flag that decides whether `save_profile` is called. -/
def profileUpdateStep (profile : Profile) (m : FetchedEmail) : Profile × Bool :=
  let p1 :=
    if m.display_name ≠ "" ∧ m.display_name ≠ profile.gmail_display_name then
      ({ profile with gmail_display_name := m.display_name }, true)
    else (profile, false)
  let p2 :=
    if m.parsed_name ≠ "" ∧ p1.1.name = "" then
      ({ p1.1 with name := m.parsed_name }, true)
    else p1
  let p3 :=
    if m.parsed_reg ≠ "" ∧ p2.1.registration_number = "" then
      ({ p2.1 with registration_number := m.parsed_reg }, true)
    else p2
  p3

/-- One iteration of `run`'s `while` body (runner.py:299-437).

Order of effects, as in the source: the watermark gate (line 302); verdict
computation (316-337); then the match-artifact write, in-memory state update
and calendar side effect (341-378) — an exception in the calendar call
propagates to the outer handler, skipping everything after it; then the
profile update (402-418) and finally the watermark advance plus `save_state`
(428-429). -/
def runIteration (fs : FileSystem) (state : PState) (profile : Profile)
    (inbox : Option FetchedEmail) (attach : AttachmentSummary) (now : Nat)
    (calendarRaises : Bool) : IterationResult :=
  match inbox with
  | none => ⟨fs, state, profile, false⟩
  | some m =>
    if m.message_id ≠ "" ∧ state.last_message_id ≠ some m.message_id then
      let overall := overallVerdict profile m attach
      let email_data := emailDataOf m attach overall
      let step6 := persistAndSideEffects fs state profile email_data attach now
        calendarRaises
      if step6.2.2 then
        -- the calendar call raised: steps 7-9 never run
        ⟨step6.1, step6.2.1, profile, true⟩
      else
        let p3 := profileUpdateStep profile m
        let fs2 := if p3.2 then { step6.1 with profileFile := p3.1 } else step6.1
        -- step 9 (lines 428-429): watermark advance + save_state
        let state2 := { step6.2.1 with last_message_id := some m.message_id }
        ⟨{ fs2 with stateFile := state2 }, state2, p3.1, false⟩
    else ⟨fs, state, profile, false⟩

/-- Result of the manual `check_email` endpoint (api.py:106-177): the
filesystem afterwards, a status tag, and whether the calendar call raised
(routing the request to the 500 handler). -/
structure CheckEmailResult where
  fs : FileSystem
  status : String
  raised : Bool
  deriving DecidableEq, Repr

/-- `check_email` (api.py:106-177).  The state is loaded from the state file,
the same classification pipeline runs (fusion via `best`), and the watermark
advance plus `save_state` again happen only after the calendar call. -/
def checkEmail (fs : FileSystem) (profile : Profile)
    (inbox : Option FetchedEmail) (attach : AttachmentSummary) (now : Nat)
    (calendarRaises : Bool) : CheckEmailResult :=
  let state := fs.stateFile
  match inbox with
  | none => ⟨fs, "no_new_emails", false⟩
  | some m =>
    if m.message_id = "" then ⟨fs, "no_new_emails", false⟩
    else if some m.message_id = state.last_message_id then
      ⟨fs, "already_processed", false⟩
    else
      let match_type_header :=
        evaluate_match profile m.parsed_name m.parsed_reg m.from_email
      let match_type_content := evaluate_content_match profile m.subject m.body
      let match_type := best [match_type_header, match_type_content]
      -- lines 136-142: attachment upgrade via best
      let overall :=
        if attach.overall_match_type ≠ "NO_MATCH" then
          let upgraded := best [match_type, attach.overall_match_type]
          if upgraded ≠ match_type then upgraded else match_type
        else match_type
      let email_data := emailDataOf m attach overall
      if overall ≠ "NO_MATCH" then
        let fs1 :=
          { fs with matchFiles := fs.matchFiles ++ [mkMatchData profile email_data] }
        let state1 := update_state_with_match state email_data now overall
        if should_create_calendar_event email_data ∧ calendarRaises then
          ⟨fs1, "error_500", true⟩
        else
          let state2 := { state1 with last_message_id := some m.message_id }
          ⟨{ fs1 with stateFile := state2 }, "processed", false⟩
      else
        let state2 := { state with last_message_id := some m.message_id }
        ⟨{ fs with stateFile := state2 }, "processed", false⟩

/-! Concrete sample values, used by the witness and counterexample theorems. -/

/-- A profile as produced by login: name and registration code set. -/
def sampleProfile : Profile :=
  { name := "Krish Verma"
    registration_number := "22BCE2382"
    gmail_address := ""
    personal_email := ""
    gmail_display_name := "" }

/-- A profile whose every field is non-empty. -/
def samplePopulatedProfile : Profile :=
  { name := "Krish Verma"
    registration_number := "22BCE2382"
    gmail_address := "krish.verma2022@vitstudent.ac.in"
    personal_email := "krishverma2004@gmail.com"
    gmail_display_name := "Old Name" }

/-- A fetched message whose parsed header identity matches `sampleProfile`. -/
def sampleMsg : FetchedEmail :=
  { message_id := "m1"
    display_name := "Krish Verma 22BCE2382"
    from_email := "someone@example.com"
    subject := "Shortlisted"
    body := "Congrats"
    parsed_name := "Krish Verma"
    parsed_reg := "22BCE2382" }

/-- A fetched message from an unrelated sender. -/
def sampleOtherMsg : FetchedEmail :=
  { message_id := "m2"
    display_name := "New Sender"
    from_email := "other@example.org"
    subject := "hello"
    body := ""
    parsed_name := ""
    parsed_reg := "" }

/-- A throwaway concrete email payload. -/
def sampleEmailData : EmailData :=
  { message_id := "m1"
    from_display_name := "Krish Verma"
    from_email := "someone@example.com"
    parsed_name := "Krish Verma"
    parsed_reg := "22BCE2382"
    subject := "Shortlisted"
    body_preview := ""
    match_type := "POSSIBILITY"
    attachments := ⟨"NO_MATCH", 0⟩ }

/-! Declarative characterisations used to settle the presence-mode name-test
claim. -/

/-- `p` occurs as a contiguous block at position `j` of `t`. -/
def occursAt (t p : List Char) (j : Nat) : Prop :=
  p.isPrefixOf (t.drop j) = true ∧ j + p.length ≤ t.length

/-- Declarative semantics of the find loop of `text_contains_name`: the parts
can be placed, in the given order, at non-decreasing, non-overlapping
positions at or after `i`, each an occurrence within `t`. -/
def Placeable (t : List Char) : List (List Char) → Nat → Prop
  | [], _ => True
  | p :: ps, i => ∃ j, i ≤ j ∧ occursAt t p j ∧ Placeable t ps (j + p.length)

/-- Modelled from the spec's words for the presence-mode name test: every
whitespace-delimited word of the normalised profile name appears, in the same
left-to-right order, among the words of the normalised text — a word-level
subsequence containment. -/
def nameWordsSubseqOfTextWords (text name : String) : Prop :=
  List.Sublist (wordsSpace (normNameChars name)) (wordsSpace (normTextChars text))

end Shortlist

namespace Shortlist

/-! ### Supporting lemmas on ranks and verdict fusion -/

theorem canonical_iff (v : String) :
    canonical v ↔ v = "CONFIRMED_MATCH" ∨ v = "POSSIBILITY" ∨ v = "PARTIAL_MATCH" ∨
      v = "NO_MATCH" := by
  simp [canonical, MATCH_HIERARCHY]

theorem rank_of_not_canonical {v : String} (h : ¬ canonical v) : rank v = 4 := by
  rw [canonical_iff] at h
  push_neg at h
  obtain ⟨h1, h2, h3, h4⟩ := h
  have e1 : ("CONFIRMED_MATCH" == v) = false := beq_eq_false_iff_ne.mpr (Ne.symm h1)
  have e2 : ("POSSIBILITY" == v) = false := beq_eq_false_iff_ne.mpr (Ne.symm h2)
  have e3 : ("PARTIAL_MATCH" == v) = false := beq_eq_false_iff_ne.mpr (Ne.symm h3)
  have e4 : ("NO_MATCH" == v) = false := beq_eq_false_iff_ne.mpr (Ne.symm h4)
  simp [rank, MATCH_HIERARCHY, List.indexOf, List.findIdx_cons, e1, e2, e3, e4]

theorem rank_le_three_of_canonical {v : String} (h : canonical v) : rank v ≤ 3 := by
  rcases (canonical_iff v).mp h with rfl | rfl | rfl | rfl <;> decide

theorem canonical_ne_empty {v : String} (h : canonical v) : v ≠ "" := by
  rcases (canonical_iff v).mp h with rfl | rfl | rfl | rfl <;> decide

theorem minFold_cons (c x : String) (cs : List String) :
    minFold c (x :: cs) = minFold (if rank x < rank c then x else c) cs := by
  simp [minFold]

theorem minFold_mem : ∀ (cs : List String) (c : String), minFold c cs ∈ c :: cs := by
  intro cs
  induction cs with
  | nil => intro c; simp [minFold]
  | cons x cs ih =>
    intro c
    rw [minFold_cons]
    have h := ih (if rank x < rank c then x else c)
    rcases List.mem_cons.mp h with h' | h'
    · rw [h']
      split
      · exact List.mem_cons_of_mem _ (List.mem_cons_self _ _)
      · exact List.mem_cons_self _ _
    · exact List.mem_cons_of_mem _ (List.mem_cons_of_mem _ h')

theorem minFold_le :
    ∀ (cs : List String) (c : String), ∀ x ∈ c :: cs, rank (minFold c cs) ≤ rank x := by
  intro cs
  induction cs with
  | nil =>
    intro c x hx
    rcases List.mem_singleton.mp hx with rfl
    simp [minFold]
  | cons y cs ih =>
    intro c x hx
    have hhead : rank (minFold (if rank y < rank c then y else c) cs) ≤
        rank (if rank y < rank c then y else c) :=
      ih _ _ (List.mem_cons_self _ _)
    have hc : rank (if rank y < rank c then y else c) ≤ rank c := by split <;> omega
    have hy : rank (if rank y < rank c then y else c) ≤ rank y := by split <;> omega
    rw [minFold_cons]
    rcases List.mem_cons.mp hx with h1 | h1
    · rw [h1]; omega
    rcases List.mem_cons.mp h1 with h2 | h2
    · rw [h2]; omega
    · exact ih _ _ (List.mem_cons_of_mem _ h2)

theorem best_eq_minFold {args : List String} {c : String} {cs : List String}
    (h : args.filter (fun m => m ≠ "") = c :: cs) : best args = minFold c cs := by
  unfold best
  rw [h]

end Shortlist

namespace Shortlist

/-! ### C2 — persistence mechanism of `save_state` -/

/-- C2 (counterexample): `save_state` does not write to a temporary location
and atomically rename into place — its filesystem effect (for the fresh empty
state) is not of the write-temp-then-rename shape. -/
theorem save_state_no_temp_rename :
    ¬ ∃ tmp content, tmp ≠ STATE_FILE ∧
      save_state_ops ⟨none, [], [], []⟩ =
        [FsOp.writeState tmp content, FsOp.rename tmp STATE_FILE] := by
  rintro ⟨tmp, content, -, h⟩
  simp [save_state_ops] at h

/-- C2 (amended): for every state value, `save_state` persists the full state
as one single direct write of the serialised state to the state-file path; no
rename and no temporary location is involved, so atomicity against concurrent
readers is not provided by the write mechanism. -/
theorem save_state_single_direct_write (state : PState) :
    save_state_ops state = [FsOp.writeState STATE_FILE state] ∧
    ((save_state_ops state).all fun op => !op.isRename) = true :=
  ⟨rfl, rfl⟩

/-! ### C9 — verdict fusion (`best`) -/

/-- C9: `best` equals the minimum-by-rank of its non-falsy arguments
(first-minimal, and a lower bound in rank on all of them); it is invariant
under every permutation of three canonical verdict arguments;
`best(v, NO_MATCH) = v` for canonical `v`; and an empty or all-falsy argument
list yields `NO_MATCH`. -/
theorem best_fusion_properties :
    (best [] = "NO_MATCH") ∧
    (∀ args : List String, (∀ a ∈ args, a = "") → best args = "NO_MATCH") ∧
    (∀ v, canonical v → best [v, "NO_MATCH"] = v) ∧
    (∀ a b c, canonical a → canonical b → canonical c →
      best [a, b, c] = best [b, a, c] ∧ best [a, b, c] = best [a, c, b] ∧
      best [a, b, c] = best [b, c, a] ∧ best [a, b, c] = best [c, a, b] ∧
      best [a, b, c] = best [c, b, a]) ∧
    (∀ args : List String, args.filter (fun m => m ≠ "") ≠ [] →
      best args ∈ args.filter (fun m => m ≠ "") ∧
      ∀ x ∈ args.filter (fun m => m ≠ ""), rank (best args) ≤ rank x) := by
  refine ⟨by decide, ?_, ?_, ?_, ?_⟩
  · intro args h
    have hf : args.filter (fun m => m ≠ "") = [] := by
      rw [List.filter_eq_nil_iff]
      intro a ha
      simp [h a ha]
    unfold best
    rw [hf]
  · intro v hv
    rcases (canonical_iff v).mp hv with rfl | rfl | rfl | rfl <;> decide
  · intro a b c ha hb hc
    rcases (canonical_iff a).mp ha with rfl | rfl | rfl | rfl <;>
      rcases (canonical_iff b).mp hb with rfl | rfl | rfl | rfl <;>
      rcases (canonical_iff c).mp hc with rfl | rfl | rfl | rfl <;>
      exact ⟨by decide, by decide, by decide, by decide, by decide⟩
  · intro args hne
    rcases hf : args.filter (fun m => m ≠ "") with _ | ⟨c, cs⟩
    · exact absurd hf hne
    · rw [best_eq_minFold hf]
      exact ⟨minFold_mem cs c, fun x hx => minFold_le cs c x hx⟩

/-- C9 witness: concrete instances of the fusion properties. -/
theorem best_fusion_properties_witness :
    best ["POSSIBILITY", "NO_MATCH"] = "POSSIBILITY" ∧
    best ["CONFIRMED_MATCH", "POSSIBILITY", "NO_MATCH"] =
      best ["NO_MATCH", "POSSIBILITY", "CONFIRMED_MATCH"] :=
  ⟨best_fusion_properties.2.2.1 "POSSIBILITY" (by decide),
   (best_fusion_properties.2.2.2.1 "CONFIRMED_MATCH" "POSSIBILITY" "NO_MATCH"
      (by decide) (by decide) (by decide)).2.2.2.2⟩

/-! ### C10 — unknown verdict strings rank worst -/

/-- C10: `rank` is total and maps every non-canonical string to 4, strictly
worse than `NO_MATCH`'s rank 3; `best` of a canonical verdict with a
non-empty unrecognized string (in either order) is the canonical verdict; and
`best` over only non-empty unrecognized strings returns one of them — in
particular never `NO_MATCH`. -/
theorem rank_unknown_worst :
    (∀ s, ¬ canonical s → rank s = 4) ∧
    (rank "NO_MATCH" = 3 ∧ (3 : Nat) < 4) ∧
    (∀ v s, canonical v → s ≠ "" → ¬ canonical s →
      best [v, s] = v ∧ best [s, v] = v) ∧
    (∀ s, s ≠ "" → ¬ canonical s → best [s] = s) ∧
    (∀ args : List String, args ≠ [] → (∀ a ∈ args, a ≠ "" ∧ ¬ canonical a) →
      best args ∈ args ∧ best args ≠ "NO_MATCH") := by
  refine ⟨fun s h => rank_of_not_canonical h, ⟨by decide, by decide⟩, ?_, ?_, ?_⟩
  · intro v s hv hs hsc
    have hv' : v ≠ "" := canonical_ne_empty hv
    have h4 : rank s = 4 := rank_of_not_canonical hsc
    have h3 : rank v ≤ 3 := rank_le_three_of_canonical hv
    have hf1 : [v, s].filter (fun m => m ≠ "") = [v, s] := by simp [hv', hs]
    have hf2 : [s, v].filter (fun m => m ≠ "") = [s, v] := by simp [hv', hs]
    constructor
    · rw [best_eq_minFold hf1]
      simp only [minFold, List.foldl_cons, List.foldl_nil]
      rw [if_neg (by omega)]
    · rw [best_eq_minFold hf2]
      simp only [minFold, List.foldl_cons, List.foldl_nil]
      rw [if_pos (by omega)]
  · intro s hs hsc
    have hf : [s].filter (fun m => m ≠ "") = [s] := by simp [hs]
    rw [best_eq_minFold hf]
    simp [minFold]
  · intro args hne h
    have hf : args.filter (fun m => m ≠ "") = args :=
      List.filter_eq_self.mpr (by intro a ha; simp [(h a ha).1])
    cases args with
    | nil => exact absurd rfl hne
    | cons c cs =>
      have hmem : best (c :: cs) ∈ c :: cs := by
        rw [best_eq_minFold hf]; exact minFold_mem cs c
      refine ⟨hmem, fun hbad => ?_⟩
      have hnc := (h _ hmem).2
      rw [hbad] at hnc
      exact hnc (by decide)

/-- C10 witness: concrete instances. -/
theorem rank_unknown_worst_witness :
    best ["CONFIRMED_MATCH", "UNSUPPORTED"] = "CONFIRMED_MATCH" ∧
    best ["UNSUPPORTED"] = "UNSUPPORTED" :=
  ⟨(rank_unknown_worst.2.2.1 "CONFIRMED_MATCH" "UNSUPPORTED" (by decide) (by decide)
      (by decide)).1,
   rank_unknown_worst.2.2.2.1 "UNSUPPORTED" (by decide) (by decide)⟩

/-! ### C7 — classifier decision tables -/

theorem containsSub_nil {p : List Char} (hp : p ≠ []) : containsSub [] p = false := by
  cases p with
  | nil => simp at hp
  | cons c cs => rfl

theorem check_name_match_empty_right (x : String) : check_name_match x "" = false := by
  simp [check_name_match]

theorem check_email_match_empty_right (x : String) : check_email_match x "" = false := by
  simp [check_email_match]

theorem content_reg_match_empty (p : Profile) : content_reg_match p "" "" = false := by
  unfold content_reg_match
  cases hpr : stripWs p.registration_number.data with
  | nil => simp
  | cons c cs =>
    have h : containsSub (lowerL (content_text "" "").data) (lowerL (c :: cs)) = false :=
      rfl
    simp [h]

theorem content_gmail_match_empty (p : Profile) : content_gmail_match p "" "" = false := by
  unfold content_gmail_match
  cases hpr : stripWs p.gmail_address.data with
  | nil => simp [lowerL]
  | cons c cs =>
    have h : containsSub (lowerL (content_text "" "").data) (lowerL (c :: cs)) = false :=
      rfl
    simp [hpr, h]

theorem content_personal_match_empty (p : Profile) :
    content_personal_match p "" "" = false := by
  unfold content_personal_match
  cases hpr : stripWs p.personal_email.data with
  | nil => simp [lowerL]
  | cons c cs =>
    have h : containsSub (lowerL (content_text "" "").data) (lowerL (c :: cs)) = false :=
      rfl
    simp [hpr, h]

theorem content_name_match_empty (p : Profile) : content_name_match p "" "" = false := by
  unfold content_name_match
  simp [text_contains_name, content_text]

/-- C7: in both evaluation modes the verdict follows the decision table
(CONFIRMED iff name and some id signal, POSSIBILITY iff only name,
PARTIAL iff only an id signal, NO_MATCH otherwise), the result is always one
of the four canonical verdicts (totality — the embedded functions are total,
so no exception path exists), and empty inputs (empty texts, or a profile
with every field empty) classify as `NO_MATCH`. -/
theorem evaluate_decision_tables :
    (∀ (p : Profile) (n r e : String),
      (evaluate_match p n r e = "CONFIRMED_MATCH" ↔
        check_name_match p.name n = true ∧
        (header_reg_match p r || check_email_match p.gmail_address e ||
          check_email_match p.personal_email e) = true) ∧
      (evaluate_match p n r e = "POSSIBILITY" ↔
        check_name_match p.name n = true ∧
        (header_reg_match p r || check_email_match p.gmail_address e ||
          check_email_match p.personal_email e) = false) ∧
      (evaluate_match p n r e = "PARTIAL_MATCH" ↔
        check_name_match p.name n = false ∧
        (header_reg_match p r || check_email_match p.gmail_address e ||
          check_email_match p.personal_email e) = true) ∧
      (evaluate_match p n r e = "NO_MATCH" ↔
        check_name_match p.name n = false ∧
        (header_reg_match p r || check_email_match p.gmail_address e ||
          check_email_match p.personal_email e) = false) ∧
      canonical (evaluate_match p n r e)) ∧
    (∀ (p : Profile) (s b : String),
      (evaluate_content_match p s b = "CONFIRMED_MATCH" ↔
        content_name_match p s b = true ∧
        (content_reg_match p s b || content_gmail_match p s b ||
          content_personal_match p s b) = true) ∧
      (evaluate_content_match p s b = "POSSIBILITY" ↔
        content_name_match p s b = true ∧
        (content_reg_match p s b || content_gmail_match p s b ||
          content_personal_match p s b) = false) ∧
      (evaluate_content_match p s b = "PARTIAL_MATCH" ↔
        content_name_match p s b = false ∧
        (content_reg_match p s b || content_gmail_match p s b ||
          content_personal_match p s b) = true) ∧
      (evaluate_content_match p s b = "NO_MATCH" ↔
        content_name_match p s b = false ∧
        (content_reg_match p s b || content_gmail_match p s b ||
          content_personal_match p s b) = false) ∧
      canonical (evaluate_content_match p s b)) ∧
    (∀ (p : Profile) (n r e s b : String),
      evaluate_match p "" "" "" = "NO_MATCH" ∧
      evaluate_content_match p "" "" = "NO_MATCH" ∧
      evaluate_match ⟨"", "", "", "", ""⟩ n r e = "NO_MATCH" ∧
      evaluate_content_match ⟨"", "", "", "", ""⟩ s b = "NO_MATCH") := by
  refine ⟨?_, ?_, ?_⟩
  · intro p n r e
    cases hn : check_name_match p.name n <;>
      cases hr : header_reg_match p r <;>
      cases hg : check_email_match p.gmail_address e <;>
      cases hp : check_email_match p.personal_email e <;>
      simp [evaluate_match, hn, hr, hg, hp, canonical_iff]
  · intro p s b
    cases hn : content_name_match p s b <;>
      cases hr : content_reg_match p s b <;>
      cases hg : content_gmail_match p s b <;>
      cases hp : content_personal_match p s b <;>
      simp [evaluate_content_match, hn, hr, hg, hp, canonical_iff]
  · intro p n r e s b
    refine ⟨?_, ?_, ?_, ?_⟩
    · simp [evaluate_match, check_name_match_empty_right, check_email_match_empty_right,
        header_reg_match]
    · simp [evaluate_content_match, content_name_match_empty, content_reg_match_empty,
        content_gmail_match_empty, content_personal_match_empty]
    · simp [evaluate_match, check_name_match, check_email_match, header_reg_match]
    · have h1 : content_name_match ⟨"", "", "", "", ""⟩ s b = false := by
        have hname : (String.mk (stripWs ("" : String).data)) = "" := by decide
        simp [content_name_match, hname, text_contains_name]
      have h2 : content_reg_match ⟨"", "", "", "", ""⟩ s b = false := by
        simp [content_reg_match, stripWs]
      have h3 : content_gmail_match ⟨"", "", "", "", ""⟩ s b = false := by
        simp [content_gmail_match, stripWs, lowerL]
      have h4 : content_personal_match ⟨"", "", "", "", ""⟩ s b = false := by
        simp [content_personal_match, stripWs, lowerL]
      simp [evaluate_content_match, h1, h2, h3, h4]

/-! ### C6 — retention cap of the state store -/

theorem trim100_eq_drop (l : List MatchEntry) : trim100 l = l.drop (l.length - 100) := by
  unfold trim100
  split
  · rfl
  · have h : l.length - 100 = 0 := by omega
    rw [h, List.drop_zero]

theorem length_trim100 (l : List MatchEntry) :
    (trim100 l).length = min l.length 100 := by
  rw [trim100_eq_drop, List.length_drop]
  omega

theorem trim100_append (x y : List MatchEntry) :
    trim100 (trim100 x ++ y) = trim100 (x ++ y) := by
  rw [trim100_eq_drop x, trim100_eq_drop, trim100_eq_drop]
  rw [List.drop_append_eq_append_drop, List.drop_append_eq_append_drop, List.drop_drop]
  simp only [List.length_append, List.length_drop]
  congr 1
  · congr 1
    omega
  · congr 1
    omega

theorem catList_update_same {mt : String}
    (hmt : mt = "CONFIRMED_MATCH" ∨ mt = "POSSIBILITY" ∨ mt = "PARTIAL_MATCH")
    (s : PState) (e : EmailData) (now : Nat) :
    catList mt (update_state_with_match s e now mt) =
      trim100 (catList mt s ++ [mkMatchEntry e now]) := by
  rcases hmt with rfl | rfl | rfl <;> simp [catList, update_state_with_match]

theorem catList_applyMany {mt : String}
    (hmt : mt = "CONFIRMED_MATCH" ∨ mt = "POSSIBILITY" ∨ mt = "PARTIAL_MATCH") :
    ∀ (l : List (EmailData × Nat)), l ≠ [] → ∀ (s : PState),
      catList mt (applyMany s l mt) =
        trim100 (catList mt s ++ l.map fun en => mkMatchEntry en.1 en.2) := by
  intro l
  induction l with
  | nil => intro h; exact absurd rfl h
  | cons en l ih =>
    intro _ s
    have hstep : applyMany s (en :: l) mt =
        applyMany (update_state_with_match s en.1 en.2 mt) l mt := by
      simp [applyMany]
    cases l with
    | nil =>
      rw [hstep]
      simp only [applyMany, List.foldl_nil, List.map_cons, List.map_nil]
      exact catList_update_same hmt s en.1 en.2
    | cons en2 l2 =>
      rw [hstep, ih (by simp) (update_state_with_match s en.1 en.2 mt),
        catList_update_same hmt]
      rw [trim100_append]
      simp [List.append_assoc]

/-- C6: every category list has length at most 100 after every apply
(whatever the verdict string and the incoming state), and after more than 100
applies of the same canonical category the stored list for that category is
exactly the last 100 applied records, in order (oldest-first eviction). -/
theorem retention_cap :
    (∀ (s : PState) (e : EmailData) (now : Nat) (mt : String),
      (update_state_with_match s e now mt).confirmed_matches.length ≤ 100 ∧
      (update_state_with_match s e now mt).possibilities.length ≤ 100 ∧
      (update_state_with_match s e now mt).partial_matches.length ≤ 100) ∧
    (∀ (mt : String),
      mt = "CONFIRMED_MATCH" ∨ mt = "POSSIBILITY" ∨ mt = "PARTIAL_MATCH" →
      ∀ (s : PState) (l : List (EmailData × Nat)), l.length > 100 →
        catList mt (applyMany s l mt) =
          (l.map fun en => mkMatchEntry en.1 en.2).drop (l.length - 100) ∧
        (catList mt (applyMany s l mt)).length = 100) := by
  constructor
  · intro s e now mt
    refine ⟨?_, ?_, ?_⟩ <;>
      · simp only [update_state_with_match]
        rw [length_trim100]
        omega
  · intro mt hmt s l hl
    have hne : l ≠ [] := by intro h0; rw [h0] at hl; simp at hl
    have hmain : catList mt (applyMany s l mt) =
        (l.map fun en => mkMatchEntry en.1 en.2).drop (l.length - 100) := by
      rw [catList_applyMany hmt l hne s, trim100_eq_drop,
        List.drop_append_eq_append_drop]
      simp only [List.length_append, List.length_map]
      rw [List.drop_of_length_le (by omega), List.nil_append]
      congr 1
      omega
    refine ⟨hmain, ?_⟩
    rw [hmain]
    simp only [List.length_drop, List.length_map]
    omega

/-- C6 witness: 101 applied `POSSIBILITY` records on the empty state. -/
theorem retention_cap_witness :
    catList "POSSIBILITY"
        (applyMany ⟨none, [], [], []⟩ (List.replicate 101 (sampleEmailData, 0))
          "POSSIBILITY") =
      ((List.replicate 101 (sampleEmailData, 0)).map
          fun en => mkMatchEntry en.1 en.2).drop
        ((List.replicate 101 (sampleEmailData, 0)).length - 100) ∧
    (catList "POSSIBILITY"
        (applyMany ⟨none, [], [], []⟩ (List.replicate 101 (sampleEmailData, 0))
          "POSSIBILITY")).length = 100 :=
  retention_cap.2 "POSSIBILITY" (by decide) ⟨none, [], [], []⟩
    (List.replicate 101 (sampleEmailData, 0)) (by simp)

/-! ### C3 — idempotent skip at the watermark -/

/-- C3: when the newest inbound message id equals the stored watermark, one
poll-loop iteration returns everything unchanged — no new match record, no
change to any category list or count, no watermark change, no filesystem
write; the manual check-email path likewise leaves the filesystem untouched
and raises nothing. -/
theorem watermark_idempotent_skip :
    (∀ (fs : FileSystem) (state : PState) (profile : Profile) (m : FetchedEmail)
        (attach : AttachmentSummary) (now : Nat) (calendarRaises : Bool),
      state.last_message_id = some m.message_id →
      runIteration fs state profile (some m) attach now calendarRaises =
        ⟨fs, state, profile, false⟩) ∧
    (∀ (fs : FileSystem) (profile : Profile) (m : FetchedEmail)
        (attach : AttachmentSummary) (now : Nat) (calendarRaises : Bool),
      fs.stateFile.last_message_id = some m.message_id →
      (checkEmail fs profile (some m) attach now calendarRaises).fs = fs ∧
      (checkEmail fs profile (some m) attach now calendarRaises).raised = false) := by
  constructor
  · intro fs state profile m attach now calendarRaises h
    simp [runIteration, h]
  · intro fs profile m attach now calendarRaises h
    by_cases hmid : m.message_id = ""
    · simp [checkEmail, hmid]
    · simp [checkEmail, hmid, h]

/-- C3 witness: a state whose watermark already names the newest message. -/
theorem watermark_idempotent_skip_witness :
    runIteration ⟨⟨some "m1", [], [], []⟩, sampleProfile, []⟩ ⟨some "m1", [], [], []⟩
        sampleProfile (some sampleMsg) ⟨"NO_MATCH", 0⟩ 0 true =
      ⟨⟨⟨some "m1", [], [], []⟩, sampleProfile, []⟩, ⟨some "m1", [], [], []⟩,
        sampleProfile, false⟩ ∧
    (checkEmail ⟨⟨some "m1", [], [], []⟩, sampleProfile, []⟩ sampleProfile
        (some sampleMsg) ⟨"NO_MATCH", 0⟩ 0 true).fs =
      ⟨⟨some "m1", [], [], []⟩, sampleProfile, []⟩ ∧
    (checkEmail ⟨⟨some "m1", [], [], []⟩, sampleProfile, []⟩ sampleProfile
        (some sampleMsg) ⟨"NO_MATCH", 0⟩ 0 true).raised = false :=
  ⟨watermark_idempotent_skip.1 _ _ _ _ _ _ _ rfl,
   (watermark_idempotent_skip.2 _ _ _ _ _ _ rfl).1,
   (watermark_idempotent_skip.2 _ _ _ _ _ _ rfl).2⟩

/-! ### C1 — a calendar-side-effect exception aborts persistence -/

/-- C1 (counterexample): for a concrete message fused to `CONFIRMED_MATCH`,
an exception in the calendar call leaves the persisted state file completely
unchanged — the watermark has not advanced and no match record is durable in
it (only the individual match artifact was written) — refuting the claim that
the record is durable and the watermark advanced at that moment. -/
theorem side_effect_failure_counterexample :
    overallVerdict sampleProfile sampleMsg ⟨"NO_MATCH", 0⟩ = "CONFIRMED_MATCH" ∧
    (runIteration ⟨⟨none, [], [], []⟩, sampleProfile, []⟩ ⟨none, [], [], []⟩
        sampleProfile (some sampleMsg) ⟨"NO_MATCH", 0⟩ 0 true).raised = true ∧
    (runIteration ⟨⟨none, [], [], []⟩, sampleProfile, []⟩ ⟨none, [], [], []⟩
        sampleProfile (some sampleMsg) ⟨"NO_MATCH", 0⟩ 0 true).fs.stateFile =
      ⟨none, [], [], []⟩ ∧
    (runIteration ⟨⟨none, [], [], []⟩, sampleProfile, []⟩ ⟨none, [], [], []⟩
        sampleProfile (some sampleMsg) ⟨"NO_MATCH", 0⟩ 0 true).fs.stateFile.last_message_id ≠
      some sampleMsg.message_id ∧
    (runIteration ⟨⟨none, [], [], []⟩, sampleProfile, []⟩ ⟨none, [], [], []⟩
        sampleProfile (some sampleMsg) ⟨"NO_MATCH", 0⟩ 0 true).fs.matchFiles ≠ [] := by
  decide

/-- C1 (amended): when the fused verdict is `CONFIRMED_MATCH` and the calendar
call raises, the iteration ends with the exception flagged, the match artifact
written to the data directory, the in-memory state updated — but the persisted
state file and profile file untouched: the watermark advance and `save_state`
run only after the side-effects stage completes without exception. -/
theorem side_effect_failure_amended (fs : FileSystem) (state : PState)
    (profile : Profile) (m : FetchedEmail) (attach : AttachmentSummary) (now : Nat)
    (hmid : m.message_id ≠ "") (hskip : state.last_message_id ≠ some m.message_id)
    (hover : overallVerdict profile m attach = "CONFIRMED_MATCH") :
    runIteration fs state profile (some m) attach now true =
      ⟨{ fs with matchFiles := fs.matchFiles ++
          [mkMatchData profile (emailDataOf m attach "CONFIRMED_MATCH")] },
        update_state_with_match state (emailDataOf m attach "CONFIRMED_MATCH") now
          "CONFIRMED_MATCH",
        profile, true⟩ := by
  simp [runIteration, hmid, hskip, hover, persistAndSideEffects,
    should_create_calendar_event, emailDataOf]

/-- C1 amended witness: the concrete confirmed-match message. -/
theorem side_effect_failure_amended_witness :
    runIteration ⟨⟨none, [], [], []⟩, sampleProfile, []⟩ ⟨none, [], [], []⟩
        sampleProfile (some sampleMsg) ⟨"NO_MATCH", 0⟩ 0 true =
      ⟨{ stateFile := ⟨none, [], [], []⟩, profileFile := sampleProfile,
          matchFiles := [mkMatchData sampleProfile
            (emailDataOf sampleMsg ⟨"NO_MATCH", 0⟩ "CONFIRMED_MATCH")] },
        update_state_with_match ⟨none, [], [], []⟩
          (emailDataOf sampleMsg ⟨"NO_MATCH", 0⟩ "CONFIRMED_MATCH") 0
          "CONFIRMED_MATCH",
        sampleProfile, true⟩ :=
  side_effect_failure_amended ⟨⟨none, [], [], []⟩, sampleProfile, []⟩
    ⟨none, [], [], []⟩ sampleProfile sampleMsg ⟨"NO_MATCH", 0⟩ 0
    (by decide) (by decide) (by decide)

/-! ### C5 — what the pipeline does to the profile -/

/-- C5 (counterexample): the pipeline does more than backfill empty
name/registration fields — a message from a new sender overwrites the
non-empty `gmail_display_name` field of the profile and persists the change,
even though the message's fused verdict is `NO_MATCH` and every profile field
was non-empty. -/
theorem profile_mutation_counterexample :
    overallVerdict samplePopulatedProfile sampleOtherMsg ⟨"NO_MATCH", 0⟩ = "NO_MATCH" ∧
    samplePopulatedProfile.gmail_display_name = "Old Name" ∧
    (runIteration ⟨⟨none, [], [], []⟩, samplePopulatedProfile, []⟩ ⟨none, [], [], []⟩
        samplePopulatedProfile (some sampleOtherMsg) ⟨"NO_MATCH", 0⟩ 0
        false).memProfile.gmail_display_name = "New Sender" ∧
    (runIteration ⟨⟨none, [], [], []⟩, samplePopulatedProfile, []⟩ ⟨none, [], [], []⟩
        samplePopulatedProfile (some sampleOtherMsg) ⟨"NO_MATCH", 0⟩ 0
        false).fs.profileFile.gmail_display_name = "New Sender" ∧
    ("New Sender" : String) ≠ "Old Name" := by
  decide

theorem persistAndSideEffects_no_raise (fs : FileSystem) (state : PState)
    (profile : Profile) (email_data : EmailData) (attach : AttachmentSummary)
    (now : Nat) :
    (persistAndSideEffects fs state profile email_data attach now false).2.2 = false := by
  unfold persistAndSideEffects
  split_ifs with h1 h2 h3
  · exact h3.2.elim
  all_goals rfl

theorem profileUpdateStep_fields (profile : Profile) (m : FetchedEmail) :
    (profileUpdateStep profile m).1.gmail_address = profile.gmail_address ∧
    (profileUpdateStep profile m).1.personal_email = profile.personal_email ∧
    (profile.name ≠ "" → (profileUpdateStep profile m).1.name = profile.name) ∧
    (profile.registration_number ≠ "" →
      (profileUpdateStep profile m).1.registration_number =
        profile.registration_number) ∧
    (profileUpdateStep profile m).1.name =
      (if m.parsed_name ≠ "" ∧ profile.name = "" then m.parsed_name
        else profile.name) ∧
    (profileUpdateStep profile m).1.registration_number =
      (if m.parsed_reg ≠ "" ∧ profile.registration_number = "" then m.parsed_reg
        else profile.registration_number) ∧
    (profileUpdateStep profile m).1.gmail_display_name =
      (if m.display_name ≠ "" ∧ m.display_name ≠ profile.gmail_display_name
        then m.display_name else profile.gmail_display_name) := by
  unfold profileUpdateStep
  split_ifs <;> (try simp_all) <;> (split_ifs <;> simp_all)

/-- C5 (amended): in a completed iteration (no side-effect exception) the
pipeline leaves `gmail_address` and `personal_email` untouched, never
overwrites a non-empty `name` or `registration_number` (backfilling them from
the parsed sender identity exactly when they are empty and a parsed value is
present, whatever the verdict), but overwrites `gmail_display_name` with any
non-empty, different sender display name; the profile file is rewritten
exactly when some field changed. -/
theorem profile_mutation_frame (fs : FileSystem) (state : PState)
    (profile : Profile) (m : FetchedEmail) (attach : AttachmentSummary) (now : Nat)
    (hmid : m.message_id ≠ "") (hskip : state.last_message_id ≠ some m.message_id) :
    (runIteration fs state profile (some m) attach now false).memProfile =
      (profileUpdateStep profile m).1 ∧
    (runIteration fs state profile (some m) attach now false).memProfile.gmail_address =
      profile.gmail_address ∧
    (runIteration fs state profile (some m) attach now
        false).memProfile.personal_email = profile.personal_email ∧
    (profile.name ≠ "" →
      (runIteration fs state profile (some m) attach now false).memProfile.name =
        profile.name) ∧
    (profile.registration_number ≠ "" →
      (runIteration fs state profile (some m) attach now
          false).memProfile.registration_number = profile.registration_number) ∧
    (runIteration fs state profile (some m) attach now false).memProfile.name =
      (if m.parsed_name ≠ "" ∧ profile.name = "" then m.parsed_name
        else profile.name) ∧
    (runIteration fs state profile (some m) attach now
        false).memProfile.registration_number =
      (if m.parsed_reg ≠ "" ∧ profile.registration_number = "" then m.parsed_reg
        else profile.registration_number) ∧
    (runIteration fs state profile (some m) attach now
        false).memProfile.gmail_display_name =
      (if m.display_name ≠ "" ∧ m.display_name ≠ profile.gmail_display_name
        then m.display_name else profile.gmail_display_name) ∧
    ((runIteration fs state profile (some m) attach now false).fs.profileFile =
        (profileUpdateStep profile m).1 ∨
      (runIteration fs state profile (some m) attach now false).fs.profileFile =
        fs.profileFile) := by
  have hmem : (runIteration fs state profile (some m) attach now false).memProfile =
      (profileUpdateStep profile m).1 := by
    simp [runIteration, hmid, hskip, persistAndSideEffects_no_raise]
  have hfile : (runIteration fs state profile (some m) attach now false).fs.profileFile =
        (profileUpdateStep profile m).1 ∨
      (runIteration fs state profile (some m) attach now false).fs.profileFile =
        fs.profileFile := by
    simp only [runIteration, hmid, hskip, persistAndSideEffects_no_raise]
    by_cases hupd : (profileUpdateStep profile m).2
    · left
      simp [hmid, hskip, hupd, persistAndSideEffects_no_raise]
    · right
      simp only [Bool.not_eq_true] at hupd
      simp [hmid, hskip, hupd, persistAndSideEffects_no_raise, persistAndSideEffects]
      split_ifs <;> rfl
  obtain ⟨f1, f2, f3, f4, f5, f6, f7⟩ := profileUpdateStep_fields profile m
  rw [hmem]
  exact ⟨rfl, f1, f2, f3, f4, f5, f6, f7, hfile⟩

/-- C5 amended witness: the populated-profile, new-sender instance. -/
theorem profile_mutation_frame_witness :
    (runIteration ⟨⟨none, [], [], []⟩, samplePopulatedProfile, []⟩ ⟨none, [], [], []⟩
        samplePopulatedProfile (some sampleOtherMsg) ⟨"NO_MATCH", 0⟩ 0
        false).memProfile =
      (profileUpdateStep samplePopulatedProfile sampleOtherMsg).1 ∧
    (runIteration ⟨⟨none, [], [], []⟩, samplePopulatedProfile, []⟩ ⟨none, [], [], []⟩
        samplePopulatedProfile (some sampleOtherMsg) ⟨"NO_MATCH", 0⟩ 0
        false).memProfile.gmail_address = samplePopulatedProfile.gmail_address :=
  ⟨(profile_mutation_frame ⟨⟨none, [], [], []⟩, samplePopulatedProfile, []⟩
      ⟨none, [], [], []⟩ samplePopulatedProfile sampleOtherMsg ⟨"NO_MATCH", 0⟩ 0
      (by decide) (by decide)).1,
   (profile_mutation_frame ⟨⟨none, [], [], []⟩, samplePopulatedProfile, []⟩
      ⟨none, [], [], []⟩ samplePopulatedProfile sampleOtherMsg ⟨"NO_MATCH", 0⟩ 0
      (by decide) (by decide)).2.1⟩

/-! ### C4 — semantics of the presence-mode name test

`text_contains_name` searches for each name word with `str.find` from the
index reached so far.  The lemmas below show this greedy loop succeeds exactly
when the name words admit *some* in-order, non-overlapping placement as
substrings of the text (`Placeable`): greedy-earliest matching is complete. -/

theorem findFromAux_sound (t p : List Char) :
    ∀ (k j r : Nat), findFromAux t p j k = some r →
      j ≤ r ∧ r ≤ j + k ∧ p.isPrefixOf (t.drop r) = true := by
  intro k
  induction k with
  | zero =>
    intro j r h
    by_cases hp : p.isPrefixOf (t.drop j) = true
    · simp only [findFromAux, hp, if_true, Option.some.injEq] at h
      subst h
      exact ⟨Nat.le_refl _, by omega, hp⟩
    · simp [findFromAux, hp] at h
  | succ k ih =>
    intro j r h
    by_cases hp : p.isPrefixOf (t.drop j) = true
    · simp only [findFromAux, hp, if_true, Option.some.injEq] at h
      subst h
      exact ⟨Nat.le_refl _, by omega, hp⟩
    · simp only [findFromAux, hp, if_false] at h
      obtain ⟨h1, h2, h3⟩ := ih (j + 1) r h
      exact ⟨by omega, by omega, h3⟩

theorem findFromAux_min (t p : List Char) :
    ∀ (k j m : Nat), j ≤ m → m ≤ j + k → p.isPrefixOf (t.drop m) = true →
      ∃ r, findFromAux t p j k = some r ∧ r ≤ m := by
  intro k
  induction k with
  | zero =>
    intro j m h1 h2 h3
    have he : j = m := by omega
    subst he
    exact ⟨j, by simp [findFromAux, h3], Nat.le_refl _⟩
  | succ k ih =>
    intro j m h1 h2 h3
    by_cases hp : p.isPrefixOf (t.drop j) = true
    · exact ⟨j, by simp [findFromAux, hp], h1⟩
    · have hjm : j ≠ m := fun e => hp (e ▸ h3)
      obtain ⟨r, hr, hrm⟩ := ih (j + 1) m (by omega) (by omega) h3
      exact ⟨r, by simp [findFromAux, hp, hr], hrm⟩

theorem findFrom_sound {t p : List Char} {i r : Nat}
    (h : findFrom t p i = some r) : i ≤ r ∧ occursAt t p r := by
  unfold findFrom at h
  split at h
  · obtain ⟨h1, h2, h3⟩ := findFromAux_sound t p (t.length - i) i r h
    have hb : p.length ≤ t.length - r := by
      have hle := (List.isPrefixOf_iff_prefix.mp h3).length_le
      simpa [List.length_drop] using hle
    exact ⟨h1, h3, by omega⟩
  · cases h

theorem findFrom_min {t p : List Char} {i m : Nat} (hi : i ≤ t.length)
    (him : i ≤ m) (hocc : occursAt t p m) :
    ∃ r, findFrom t p i = some r ∧ r ≤ m := by
  obtain ⟨hpre, hbound⟩ := hocc
  obtain ⟨r, hr, hrm⟩ := findFromAux_min t p (t.length - i) i m him (by omega) hpre
  refine ⟨r, ?_, hrm⟩
  unfold findFrom
  rw [if_pos hi]
  exact hr

theorem Placeable_mono {t : List Char} :
    ∀ (ps : List (List Char)) (i i' : Nat), i' ≤ i →
      Placeable t ps i → Placeable t ps i' := by
  intro ps
  cases ps with
  | nil => intro i i' _ _; trivial
  | cons p ps =>
    intro i i' h hp
    obtain ⟨j, hij, hocc, hrest⟩ := hp
    exact ⟨j, by omega, hocc, hrest⟩

theorem containsLoop_sound {t : List Char} :
    ∀ (ps : List (List Char)) (i : Nat),
      containsLoop t ps i = true → Placeable t ps i := by
  intro ps
  induction ps with
  | nil => intro i _; trivial
  | cons p ps ih =>
    intro i h
    unfold containsLoop at h
    cases hf : findFrom t p i with
    | none => rw [hf] at h; cases h
    | some j =>
      rw [hf] at h
      obtain ⟨hij, hocc⟩ := findFrom_sound hf
      exact ⟨j, hij, hocc, ih _ h⟩

theorem containsLoop_complete {t : List Char} :
    ∀ (ps : List (List Char)) (i : Nat), i ≤ t.length → Placeable t ps i →
      containsLoop t ps i = true := by
  intro ps
  induction ps with
  | nil => intro i _ _; rfl
  | cons p ps ih =>
    intro i hi hp
    obtain ⟨j, hij, hocc, hrest⟩ := hp
    obtain ⟨r, hr, hrm⟩ := findFrom_min hi hij hocc
    obtain ⟨hir, hoccr⟩ := findFrom_sound hr
    unfold containsLoop
    rw [hr]
    have hlen : r + p.length ≤ t.length := hoccr.2
    exact ih _ hlen (Placeable_mono ps (j + p.length) (r + p.length)
      (by omega) hrest)

theorem text_contains_name_iff (text name : String) :
    text_contains_name text name = true ↔
      text ≠ "" ∧ name ≠ "" ∧ normNameChars name ≠ [] ∧
        Placeable (normTextChars text) (wordsSpace (normNameChars name)) 0 := by
  unfold text_contains_name
  by_cases h1 : text = ""
  · simp [h1]
  by_cases h2 : name = ""
  · simp [h1, h2]
  by_cases h3 : normNameChars name = []
  · simp [h1, h2, h3]
  · simp only [h1, h2, h3, or_self, if_false, ne_eq, not_false_eq_true, true_and,
      if_neg, or_false, false_or]
    constructor
    · intro h
      exact containsLoop_sound _ _ h
    · intro hp
      exact containsLoop_complete _ _ (Nat.zero_le _) hp

/-- C4 (counterexample): the test is not a word-level subsequence test — the
text "Krishna Verma" satisfies the profile name "Krish Verma" (each name word
is found as a substring, "krish" inside "krishna"), yet the name's words are
not a subsequence of the text's words. -/
theorem name_subsequence_counterexample :
    text_contains_name "Krishna Verma" "Krish Verma" = true ∧
    ¬ nameWordsSubseqOfTextWords "Krishna Verma" "Krish Verma" := by
  constructor
  · decide
  · intro h
    unfold nameWordsSubseqOfTextWords at h
    have h2 := h.eq_of_length (by decide)
    exact absurd h2 (by decide)

/-- C4 (amended): the presence-mode name test returns `True` exactly when the
whitespace-delimited words of the normalised profile name occur,
case-insensitively, in the same left-to-right order at non-overlapping
positions *as substrings* within the normalised text (gap-tolerant, and a name
word may match inside a longer text word) — an in-order substring-occurrence
test rather than a word-level subsequence test; word order is still enforced:
"Verma … Krish" does not satisfy "Krish Verma" while "Krish … Verma" does. -/
theorem text_contains_name_amended :
    (∀ text name : String,
      text_contains_name text name = true ↔
        text ≠ "" ∧ name ≠ "" ∧ normNameChars name ≠ [] ∧
          Placeable (normTextChars text) (wordsSpace (normNameChars name)) 0) ∧
    text_contains_name "Verma and eventually Krish" "Krish Verma" = false ∧
    text_contains_name "Krish and later Verma" "Krish Verma" = true :=
  ⟨text_contains_name_iff, by decide, by decide⟩

/-! ### C8 — attachment-scanner aggregation -/

theorem evaluate_row_canonical (r : RowData) :
    canonical (evaluate_row_match_flexible r) := by
  simp only [evaluate_row_match_flexible]
  split_ifs <;> decide

theorem canonical_rank_cases {v : String} (h : canonical v) :
    (v = "CONFIRMED_MATCH" ∧ rank v = 0) ∨ (v = "POSSIBILITY" ∧ rank v = 1) ∨
    (v = "PARTIAL_MATCH" ∧ rank v = 2) ∨ (v = "NO_MATCH" ∧ rank v = 3) := by
  rcases (canonical_iff v).mp h with rfl | rfl | rfl | rfl
  · exact Or.inl ⟨rfl, by decide⟩
  · exact Or.inr (Or.inl ⟨rfl, by decide⟩)
  · exact Or.inr (Or.inr (Or.inl ⟨rfl, by decide⟩))
  · exact Or.inr (Or.inr (Or.inr ⟨rfl, by decide⟩))

theorem scanRows_foldl_counts :
    ∀ (rows : List RowData) (acc : DocScan),
      (rows.foldl scanRowsStep acc).confirmed_matches.length =
        acc.confirmed_matches.length +
          (rows.map evaluate_row_match_flexible).count "CONFIRMED_MATCH" ∧
      (rows.foldl scanRowsStep acc).possibilities.length =
        acc.possibilities.length +
          (rows.map evaluate_row_match_flexible).count "POSSIBILITY" ∧
      (rows.foldl scanRowsStep acc).partial_matches.length =
        acc.partial_matches.length +
          (rows.map evaluate_row_match_flexible).count "PARTIAL_MATCH" := by
  intro rows
  induction rows with
  | nil => intro acc; simp
  | cons r rows ih =>
    intro acc
    obtain ⟨i1, i2, i3⟩ := ih (scanRowsStep acc r)
    simp only [List.foldl_cons, List.map_cons, List.count_cons]
    rcases canonical_rank_cases (evaluate_row_canonical r) with ⟨hmt, -⟩ | ⟨hmt, -⟩ |
        ⟨hmt, -⟩ | ⟨hmt, -⟩ <;>
      · rw [i1, i2, i3]
        simp [scanRowsStep, hmt]
        all_goals omega

theorem scanRows_counts (rows : List RowData) :
    (scanRows rows).confirmed_matches.length =
      (rows.map evaluate_row_match_flexible).count "CONFIRMED_MATCH" ∧
    (scanRows rows).possibilities.length =
      (rows.map evaluate_row_match_flexible).count "POSSIBILITY" ∧
    (scanRows rows).partial_matches.length =
      (rows.map evaluate_row_match_flexible).count "PARTIAL_MATCH" := by
  have h := scanRows_foldl_counts rows ⟨[], [], []⟩
  simpa [scanRows] using h

theorem accum_counts :
    ∀ (outcomes : List AttachmentOutcome) (acc : AttachResults),
      (outcomes.foldl accumAttachment acc).summary_confirmed =
        acc.summary_confirmed + (allVerdicts outcomes).count "CONFIRMED_MATCH" ∧
      (outcomes.foldl accumAttachment acc).summary_possibilities =
        acc.summary_possibilities + (allVerdicts outcomes).count "POSSIBILITY" ∧
      (outcomes.foldl accumAttachment acc).summary_partial_matches =
        acc.summary_partial_matches + (allVerdicts outcomes).count "PARTIAL_MATCH" := by
  intro outcomes
  induction outcomes with
  | nil => intro acc; simp [allVerdicts]
  | cons o outcomes ih =>
    intro acc
    obtain ⟨i1, i2, i3⟩ := ih (accumAttachment acc o)
    have hall : allVerdicts (o :: outcomes) = outcomeVerdicts o ++ allVerdicts outcomes := by
      simp [allVerdicts]
    simp only [List.foldl_cons, hall, List.count_append]
    rw [i1, i2, i3]
    cases o with
    | doc rows =>
      obtain ⟨s1, s2, s3⟩ := scanRows_counts rows
      simp only [accumAttachment, outcomeVerdicts]
      rw [s1, s2, s3]
      omega
    | docError => simp [accumAttachment, outcomeVerdicts]
    | pdfError => simp [accumAttachment, outcomeVerdicts]
    | unsupported => simp [accumAttachment, outcomeVerdicts]
    | pdf mt =>
      simp only [accumAttachment, outcomeVerdicts]
      by_cases h1 : mt = "CONFIRMED_MATCH"
      · simp [h1, List.count_cons]
        all_goals omega
      by_cases h2 : mt = "POSSIBILITY"
      · simp [h1, h2, List.count_cons]
        all_goals omega
      by_cases h3 : mt = "PARTIAL_MATCH"
      · simp [h1, h2, h3, List.count_cons]
        all_goals omega
      · simp [h1, h2, h3, List.count_cons, Ne.symm h1, Ne.symm h2, Ne.symm h3]
        all_goals omega

theorem best_of_canonical_counts (l : List String) (hl : ∀ v ∈ l, canonical v) :
    best_of l =
      if l.count "CONFIRMED_MATCH" > 0 then "CONFIRMED_MATCH"
      else if l.count "POSSIBILITY" > 0 then "POSSIBILITY"
      else if l.count "PARTIAL_MATCH" > 0 then "PARTIAL_MATCH"
      else "NO_MATCH" := by
  cases l with
  | nil => simp [best_of, best]
  | cons c cs =>
    have hf : (c :: cs).filter (fun m => m ≠ "") = c :: cs :=
      List.filter_eq_self.mpr (fun a ha => by simp [canonical_ne_empty (hl a ha)])
    have hb : best_of (c :: cs) = minFold c cs := best_eq_minFold hf
    have hmem : best_of (c :: cs) ∈ c :: cs := by rw [hb]; exact minFold_mem cs c
    have hmin : ∀ x ∈ c :: cs, rank (best_of (c :: cs)) ≤ rank x := by
      rw [hb]; exact minFold_le cs c
    have hcan : canonical (best_of (c :: cs)) := hl _ hmem
    by_cases hC : (c :: cs).count "CONFIRMED_MATCH" > 0
    · rw [if_pos hC]
      have hCmem : "CONFIRMED_MATCH" ∈ c :: cs := List.count_pos_iff.mp hC
      have h0 : rank (best_of (c :: cs)) ≤ rank "CONFIRMED_MATCH" := hmin _ hCmem
      have h0' : rank "CONFIRMED_MATCH" = 0 := by decide
      rcases canonical_rank_cases hcan with ⟨he, hr⟩ | ⟨he, hr⟩ | ⟨he, hr⟩ | ⟨he, hr⟩ <;>
        first
        | exact he
        | omega
    rw [if_neg hC]
    by_cases hP : (c :: cs).count "POSSIBILITY" > 0
    · rw [if_pos hP]
      have hPmem : "POSSIBILITY" ∈ c :: cs := List.count_pos_iff.mp hP
      have h1 : rank (best_of (c :: cs)) ≤ rank "POSSIBILITY" := hmin _ hPmem
      have h1' : rank "POSSIBILITY" = 1 := by decide
      rcases canonical_rank_cases hcan with ⟨he, hr⟩ | ⟨he, hr⟩ | ⟨he, hr⟩ | ⟨he, hr⟩
      · exact absurd (List.count_pos_iff.mpr (he ▸ hmem)) hC
      · exact he
      · omega
      · omega
    rw [if_neg hP]
    by_cases hM : (c :: cs).count "PARTIAL_MATCH" > 0
    · rw [if_pos hM]
      have hMmem : "PARTIAL_MATCH" ∈ c :: cs := List.count_pos_iff.mp hM
      have h2 : rank (best_of (c :: cs)) ≤ rank "PARTIAL_MATCH" := hmin _ hMmem
      have h2' : rank "PARTIAL_MATCH" = 2 := by decide
      rcases canonical_rank_cases hcan with ⟨he, hr⟩ | ⟨he, hr⟩ | ⟨he, hr⟩ | ⟨he, hr⟩
      · exact absurd (List.count_pos_iff.mpr (he ▸ hmem)) hC
      · exact absurd (List.count_pos_iff.mpr (he ▸ hmem)) hP
      · exact he
      · omega
    rw [if_neg hM]
    rcases canonical_rank_cases hcan with ⟨he, -⟩ | ⟨he, -⟩ | ⟨he, -⟩ | ⟨he, -⟩
    · exact absurd (List.count_pos_iff.mpr (he ▸ hmem)) hC
    · exact absurd (List.count_pos_iff.mpr (he ▸ hmem)) hP
    · exact absurd (List.count_pos_iff.mpr (he ▸ hmem)) hM
    · exact he

theorem allVerdicts_canonical {outcomes : List AttachmentOutcome}
    (hpdf : ∀ mt, AttachmentOutcome.pdf mt ∈ outcomes → canonical mt) :
    ∀ v ∈ allVerdicts outcomes, canonical v := by
  intro v hv
  unfold allVerdicts at hv
  rw [List.mem_flatMap] at hv
  obtain ⟨o, ho, hvo⟩ := hv
  cases o with
  | doc rows =>
    obtain ⟨r, -, rfl⟩ := List.mem_map.mp hvo
    exact evaluate_row_canonical r
  | pdf mt =>
    simp only [outcomeVerdicts, List.mem_singleton] at hvo
    subst hvo
    exact hpdf _ ho
  | docError => simp [outcomeVerdicts] at hvo
  | pdfError => simp [outcomeVerdicts] at hvo
  | unsupported => simp [outcomeVerdicts] at hvo

/-- C8: the overall verdict of the attachment scanner equals the strongest
verdict present across all classified table rows and parsed documents
(fused by `best_of`, so independent of how many matched), provided every PDF
document verdict is canonical — which `evaluate_text_match` guarantees;
an unsupported attachment is recorded with the sentinel `"UNSUPPORTED"`
(distinct from `"NO_MATCH"`) and contributes nothing to any summary count,
hence nothing to the overall verdict. -/
theorem attachment_overall_strongest (outcomes : List AttachmentOutcome)
    (hpdf : ∀ mt, AttachmentOutcome.pdf mt ∈ outcomes → canonical mt) :
    (parse_email_attachments outcomes).overall_match_type =
      best_of (allVerdicts outcomes) ∧
    (∀ acc : AttachResults,
      (accumAttachment acc AttachmentOutcome.unsupported).parsing_results =
        acc.parsing_results ++ [⟨"none", some "UNSUPPORTED"⟩] ∧
      (accumAttachment acc AttachmentOutcome.unsupported).summary_confirmed =
        acc.summary_confirmed ∧
      (accumAttachment acc AttachmentOutcome.unsupported).summary_possibilities =
        acc.summary_possibilities ∧
      (accumAttachment acc AttachmentOutcome.unsupported).summary_partial_matches =
        acc.summary_partial_matches) ∧
    ("UNSUPPORTED" : String) ≠ "NO_MATCH" := by
  refine ⟨?_, fun acc => ⟨rfl, rfl, rfl, rfl⟩, by decide⟩
  obtain ⟨c1, c2, c3⟩ := accum_counts outcomes
    { total_attachments := outcomes.length
      parsed_attachments := 0
      parsing_results := []
      summary_confirmed := 0
      summary_possibilities := 0
      summary_partial_matches := 0
      summary_errors := 0
      overall_match_type := "NO_MATCH" }
  rw [best_of_canonical_counts _ (allVerdicts_canonical hpdf)]
  simp only [parse_email_attachments, c1, c2, c3, Nat.zero_add]

/-- C8 witness: one scanned table with a name-only row, one unsupported file,
one PDF classified `PARTIAL_MATCH`. -/
theorem attachment_overall_strongest_witness :
    (parse_email_attachments
        [AttachmentOutcome.doc [⟨[⟨"name"⟩]⟩], AttachmentOutcome.unsupported,
          AttachmentOutcome.pdf "PARTIAL_MATCH"]).overall_match_type =
      best_of (allVerdicts
        [AttachmentOutcome.doc [⟨[⟨"name"⟩]⟩], AttachmentOutcome.unsupported,
          AttachmentOutcome.pdf "PARTIAL_MATCH"]) :=
  (attachment_overall_strongest _ (by
    intro mt h
    simp only [List.mem_cons, List.not_mem_nil, or_false] at h
    rcases h with h | h | h
    · cases h
    · cases h
    · injection h with h'
      subst h'
      decide)).1

end Shortlist
